import Mathlib

/-!
Verification of the admission planner, command builder, scheduler skip logic
and interrupt drain of `kabuki/batch_run.py`.

Numbers that Python holds as `int` or `float` are modelled as rationals `ℚ`
(the planner only adds, subtracts, multiplies and compares, so exact rational
arithmetic is a faithful model of the intent of the float code); the
`reserved` counters are naturals.  The unbounded `while True` loop of
`get_process_limit` is modelled with an explicit fuel parameter: with fuel
`n` the loop body runs at most `n` times and an exhausted fuel returns the
assignments kept so far (the Python loop can genuinely diverge, e.g. on an
all-zero request, so a fuel-indexed family is the honest embedding; all
theorems quantify over the fuel or fix one large enough for the loop to
reach its `break`).
-/

namespace Kabuki

/-- One GPU record of a machine snapshot, as produced by the probe and
consumed by the planner: `name`, total memory `mem`, free memory `free`,
current `utilization`, and the `reserved` counter that
`init_machine_limit` adds before the simulation starts. -/
structure Gpu where
  name : String
  mem : ℚ
  free : ℚ
  utilization : ℚ
  reserved : ℕ
deriving Repr, DecidableEq

/-- A machine snapshot / simulated machine state (`machine_limit` in the
source): cpu count, cpu usage fraction, free memory, the machine-level
`reserved` counter added by `init_machine_limit`, and the ordered GPU
sequence. -/
structure MachineLimit where
  cpu_count : ℚ
  cpu_usage : ℚ
  mem_free : ℚ
  reserved : ℕ
  gpus : List Gpu
deriving Repr, DecidableEq

/-- The per-job resource request (the relevant fields of the parsed
command-line `args`). -/
structure Args where
  num_cpus : ℚ
  memory_required : ℚ
  gpu_memory_required : ℚ
  gpu_utilization : ℚ
  reserve : Bool
  no_reserve_gpu : Bool
  no_gpu_required : Bool
deriving Repr, DecidableEq

/-- `machine_limit_over` (batch_run.py lines 47-53): the over-capacity
predicate on the simulated machine state. -/
def machine_limit_over (m : MachineLimit) : Bool :=
  decide (m.reserved > 1) ||
  decide (m.cpu_count < -2) ||
  decide (m.mem_free < 0) ||
  m.gpus.any (fun gpu => decide (gpu.free < 0)) ||
  m.gpus.any (fun gpu => decide (gpu.utilization > 12/10)) ||
  m.gpus.any (fun gpu => decide (gpu.reserved > 1))

/-- The `for i,gpu in enumerate(...)` scan of `subtract_process_req`
(lines 62-66): the accumulator is the current `(gpu_idx, gpu_choice)`
(`none` models `gpu_choice is None`), and the replacement condition is the
source's disjunction verbatim (`gpu_choice['reserved']` is truthy iff
nonzero). -/
def pickGpuAux (gmr : ℚ) : List (ℕ × Gpu) → Option (ℕ × Gpu) → Option (ℕ × Gpu)
  | [], acc => acc
  | (i, gpu) :: rest, acc =>
      let acc' : Option (ℕ × Gpu) :=
        match acc with
        | none => some (i, gpu)
        | some (j, choice) =>
            if choice.reserved ≠ 0 ∨ choice.free - gmr ≤ 0 ∨
                choice.utilization > gpu.utilization then
              some (i, gpu)
            else
              some (j, choice)
      pickGpuAux gmr rest acc'

/-- `subtract_process_req` (lines 55-71): charge one unit of the request
against the simulated state and return the new state together with the
recorded `gpu_idx`.  In Python the chosen GPU dict is mutated through the
`gpu_choice` reference; here the list is updated at the chosen index.
When the request needs a GPU but the GPU list is empty the Python code
would raise a `TypeError` (`gpu_choice` stays `None`); that branch is
unreachable from `get_process_limit`, which returns early on an empty GPU
list, and is modelled by returning the partially charged state with
index `0`. -/
def subtract_process_req (m : MachineLimit) (args : Args) : MachineLimit × ℕ :=
  let m1 := if args.reserve then { m with reserved := m.reserved + 1 } else m
  let m2 := { m1 with cpu_count := m1.cpu_count - args.num_cpus,
                      mem_free := m1.mem_free - args.memory_required }
  if args.no_gpu_required then
    (m2, 0)
  else
    match pickGpuAux args.gpu_memory_required m2.gpus.enum none with
    | none => (m2, 0)
    | some (i, choice) =>
        let g1 := { choice with free := choice.free - args.gpu_memory_required,
                                utilization := choice.utilization + args.gpu_utilization }
        let g2 := if args.no_reserve_gpu then g1 else { g1 with reserved := g1.reserved + 1 }
        ({ m2 with gpus := m2.gpus.set i g2 }, i)

/-- `init_machine_limit` (lines 73-77): zero the machine `reserved`
counter, derate the cpu count by current usage, zero every GPU's
`reserved` counter. -/
def init_machine_limit (m : MachineLimit) : MachineLimit :=
  { m with reserved := 0,
           cpu_count := m.cpu_count * (1 - m.cpu_usage),
           gpus := m.gpus.map (fun gpu => { gpu with reserved := 0 }) }

/-- The `while True` loop of `get_process_limit` (lines 91-95), fuel
indexed: charge one unit, stop (discarding the last index) as soon as
`machine_limit_over` holds, otherwise keep the index and continue. -/
def loopAux (args : Args) : ℕ → MachineLimit → List ℕ
  | 0, _ => []
  | fuel + 1, m =>
      let r := subtract_process_req m args
      if machine_limit_over r.1 then []
      else r.2 :: loopAux args fuel r.1

/-- `get_process_limit` (lines 79-96): empty result when the machine has
no GPUs but the request needs one; otherwise initialise the simulation
and run the admission loop. -/
def get_process_limit (fuel : ℕ) (m : MachineLimit) (args : Args) : List ℕ :=
  if m.gpus.isEmpty && !args.no_gpu_required then []
  else loopAux args fuel (init_machine_limit m)

/-- The trace of executed admission iterations: for each call of
`subtract_process_req` made by the loop, the state it was called on and
the index it returned.  The iteration whose result trips
`machine_limit_over` is the last element of the trace (its assignment is
the one `get_process_limit` discards). -/
def loopTrace (args : Args) : ℕ → MachineLimit → List (MachineLimit × ℕ)
  | 0, _ => []
  | fuel + 1, m =>
      let r := subtract_process_req m args
      if machine_limit_over r.1 then [(m, r.2)]
      else (m, r.2) :: loopTrace args fuel r.1

/-- The executed-iteration trace of the whole planner, including the
empty-GPU early return of `get_process_limit`. -/
def planTrace (fuel : ℕ) (m : MachineLimit) (args : Args) : List (MachineLimit × ℕ) :=
  if m.gpus.isEmpty && !args.no_gpu_required then []
  else loopTrace args fuel (init_machine_limit m)

/-- The machine snapshot of the spec's worked example (§8). -/
def exampleSnapshot : MachineLimit :=
  { cpu_count := 24, cpu_usage := 124/1000, mem_free := 30607, reserved := 0,
    gpus := [ { name := "GeForce RTX 2060", mem := 5934, free := 5933,
                utilization := 0, reserved := 0 },
              { name := "GeForce RTX 2060", mem := 5932, free := 5931,
                utilization := 0, reserved := 0 } ] }

/-- The request of the spec's worked example: the default command-line
values with a GPU required, no whole-machine reservation and GPU
reservation at its default (GPUs are reserved). -/
def exampleArgs : Args :=
  { num_cpus := 1, memory_required := 7000, gpu_memory_required := 1000,
    gpu_utilization := 3/4, reserve := false, no_reserve_gpu := false,
    no_gpu_required := false }

/-- Propositional reading of `machine_limit_over`. -/
lemma machine_limit_over_iff (m : MachineLimit) :
    machine_limit_over m = true ↔
      1 < m.reserved ∨ m.cpu_count < -2 ∨ m.mem_free < 0 ∨
      (∃ gpu ∈ m.gpus, gpu.free < 0) ∨
      (∃ gpu ∈ m.gpus, (12 : ℚ)/10 < gpu.utilization) ∨
      (∃ gpu ∈ m.gpus, 1 < gpu.reserved) := by
  simp [machine_limit_over, List.any_eq_true, or_assoc]

/-- The first component of `subtract_process_req` changes the machine
`reserved` counter exactly as the `if args.reserve` branch dictates. -/
lemma subtract_process_req_reserved (m : MachineLimit) (args : Args) :
    (subtract_process_req m args).1.reserved =
      (if args.reserve then m.reserved + 1 else m.reserved) := by
  unfold subtract_process_req
  cases hr : args.reserve <;> cases hg : args.no_gpu_required <;> simp only [if_true, if_false] <;>
    first
      | rfl
      | (rcases hp : pickGpuAux args.gpu_memory_required
            (if args.reserve then { m with reserved := m.reserved + 1 } else m).gpus.enum none
            with _ | ⟨i, c⟩ <;> simp_all)

/-- An admission loop started in a state whose machine `reserved` counter
is already positive, with a whole-machine-reserving request, stops at
once: the very first charge pushes `reserved` above `1`. -/
lemma loopAux_eq_nil_of_reserved (args : Args) (hr : args.reserve = true) :
    ∀ (fuel : ℕ) (m : MachineLimit), 1 ≤ m.reserved → loopAux args fuel m = [] := by
  intro fuel
  cases fuel with
  | zero => intro m _; rfl
  | succ n =>
      intro m hm
      have hres : (subtract_process_req m args).1.reserved = m.reserved + 1 := by
        rw [subtract_process_req_reserved, if_pos hr]
      have hover : machine_limit_over (subtract_process_req m args).1 = true := by
        rw [machine_limit_over_iff]
        exact Or.inl (by omega)
      simp [loopAux, hover]

/-- Claim C1: on the spec's worked example (snapshot with 24 CPUs at
12.4% usage, 30607 MB free and two idle GPUs; the default request with a
GPU required, no whole-machine reservation and GPU reservation left at
its default) the planner admits more than one slot, and the recorded GPU
indices are exactly `[0, 1]`: they alternate between `0` and `1`
starting with `0`.  The fuel `k + 3` covers every fuel large enough for
the loop to reach its `break` (and with smaller fuel the loop cannot
emit more indices than these). -/
theorem claim1_example_plan (k : ℕ) :
    get_process_limit (k + 3) exampleSnapshot exampleArgs = [0, 1] ∧
    1 < (get_process_limit (k + 3) exampleSnapshot exampleArgs).length := by
  have h : get_process_limit ((k + 2) + 1) exampleSnapshot exampleArgs = [0, 1] := by
    norm_num [get_process_limit, loopAux, subtract_process_req, init_machine_limit,
      machine_limit_over, pickGpuAux, exampleSnapshot, exampleArgs, List.enum,
      List.enumFrom]
  exact ⟨h, by rw [show k + 3 = (k + 2) + 1 from rfl, h]; norm_num⟩

/-- Claim C9: a machine whose snapshot has no GPUs, facing a request that
requires a GPU, is planned at zero capacity: `get_process_limit` returns
the empty sequence (a normal value, not an error), for every fuel. -/
theorem claim9_no_gpus_empty_plan (fuel : ℕ) (m : MachineLimit) (args : Args)
    (hgpus : m.gpus = []) (hreq : args.no_gpu_required = false) :
    get_process_limit fuel m args = [] := by
  simp [get_process_limit, hgpus, hreq]

/-- A GPU-less snapshot used to witness claim C9. -/
def gpulessSnapshot : MachineLimit :=
  { cpu_count := 16, cpu_usage := 1/2, mem_free := 4096, reserved := 0, gpus := [] }

/-- Witness for claim C9 at a concrete snapshot and the default request. -/
theorem claim9_no_gpus_empty_plan_witness :
    get_process_limit 7 gpulessSnapshot exampleArgs = [] :=
  claim9_no_gpus_empty_plan 7 gpulessSnapshot exampleArgs rfl rfl

/-- Claim C10: with the whole-machine reservation flag set, every plan has
length at most one: each charge increments the machine `reserved`
counter, and the over-capacity check trips as soon as it exceeds `1`,
i.e. on the second iteration at the latest. -/
theorem claim10_reserve_at_most_one (fuel : ℕ) (m : MachineLimit) (args : Args)
    (hr : args.reserve = true) :
    (get_process_limit fuel m args).length ≤ 1 := by
  unfold get_process_limit
  split
  · simp
  · cases fuel with
    | zero => simp [loopAux]
    | succ n =>
        rw [loopAux]
        have hres : (subtract_process_req (init_machine_limit m) args).1.reserved
            = (init_machine_limit m).reserved + 1 := by
          rw [subtract_process_req_reserved, if_pos hr]
        split
        · simp
        · simp only [List.length_cons]
          have : loopAux args n (subtract_process_req (init_machine_limit m) args).1 = [] := by
            apply loopAux_eq_nil_of_reserved args hr
            rw [hres]
            omega
          rw [this]
          simp

/-- Witness for claim C10: the worked example with whole-machine
reservation switched on plans at most one slot. -/
theorem claim10_reserve_at_most_one_witness :
    (get_process_limit 9 exampleSnapshot { exampleArgs with reserve := true }).length ≤ 1 :=
  claim10_reserve_at_most_one 9 exampleSnapshot { exampleArgs with reserve := true } rfl

/-- The kept assignments are the executed-iteration trace minus the
iterations whose charge trips the over-capacity predicate. -/
lemma loopAux_eq_filter_loopTrace (args : Args) :
    ∀ (fuel : ℕ) (m : MachineLimit),
      loopAux args fuel m =
        ((loopTrace args fuel m).filter
          (fun p => !machine_limit_over (subtract_process_req p.1 args).1)).map Prod.snd := by
  intro fuel
  induction fuel with
  | zero => intro m; rfl
  | succ n ih =>
      intro m
      rw [loopAux, loopTrace]
      by_cases h : machine_limit_over (subtract_process_req m args).1 = true
      · simp [h]
      · simp only [Bool.not_eq_true] at h
        simp [h, ih]

/-- Claim C3: (a) the over-capacity predicate holds exactly when the
machine `reserved` counter exceeds `1`, the cpu count is below `-2`, free
memory is negative, some GPU has negative free memory, some GPU's
utilization exceeds `12/10`, or some GPU's `reserved` counter exceeds `1`
(the exact constants `-2` and `12/10`); and (b) `get_process_limit`
returns exactly the assignments of the executed iterations whose charge
did not trip the predicate — the trace ends at the first tripping
iteration, whose assignment is thereby discarded. -/
theorem claim3_over_predicate_and_discard :
    (∀ m : MachineLimit,
      machine_limit_over m = true ↔
        1 < m.reserved ∨ m.cpu_count < -2 ∨ m.mem_free < 0 ∨
        (∃ gpu ∈ m.gpus, gpu.free < 0) ∨
        (∃ gpu ∈ m.gpus, (12 : ℚ)/10 < gpu.utilization) ∨
        (∃ gpu ∈ m.gpus, 1 < gpu.reserved)) ∧
    (∀ (fuel : ℕ) (m : MachineLimit) (args : Args),
      get_process_limit fuel m args =
        ((planTrace fuel m args).filter
          (fun p => !machine_limit_over (subtract_process_req p.1 args).1)).map Prod.snd) := by
  refine ⟨machine_limit_over_iff, ?_⟩
  intro fuel m args
  unfold get_process_limit planTrace
  split
  · rfl
  · exact loopAux_eq_filter_loopTrace args fuel (init_machine_limit m)

/-- The replacement step stated by the spec: the candidate replaces the
running best exactly when the best is unset, has a nonzero reserved
count, has free memory minus the GPU memory request at or below zero, or
has strictly higher utilization than the candidate. -/
def specReplaceStep (gmr : ℚ) (best : Option (ℕ × Gpu)) (cand : ℕ × Gpu) : Option (ℕ × Gpu) :=
  match best with
  | none => some cand
  | some (j, b) =>
      if b.reserved ≠ 0 ∨ b.free - gmr ≤ 0 ∨ b.utilization > cand.2.utilization then some cand
      else some (j, b)

/-- The spec's GPU selection: a single left-to-right fold of the
replacement step over the enumerated GPU sequence, starting unset. -/
def specScan (gmr : ℚ) (gpus : List Gpu) : Option (ℕ × Gpu) :=
  gpus.enum.foldl (specReplaceStep gmr) none

/-- The source's `enumerate` loop is precisely the left fold of the
spec's replacement step. -/
lemma pickGpuAux_eq_foldl (gmr : ℚ) :
    ∀ (l : List (ℕ × Gpu)) (acc : Option (ℕ × Gpu)),
      pickGpuAux gmr l acc = l.foldl (specReplaceStep gmr) acc := by
  intro l
  induction l with
  | nil => intro acc; rfl
  | cons p rest ih =>
      rcases p with ⟨i, g⟩
      intro acc
      have hstep : pickGpuAux gmr ((i, g) :: rest) acc
          = pickGpuAux gmr rest (specReplaceStep gmr acc (i, g)) := by
        rcases acc with _ | ⟨j, c⟩ <;> rfl
      rw [hstep, List.foldl_cons, ih]

/-- On a nonempty list (or a set accumulator) the scan returns a choice. -/
lemma pickGpuAux_isSome (gmr : ℚ) :
    ∀ (l : List (ℕ × Gpu)) (acc : Option (ℕ × Gpu)),
      l ≠ [] ∨ acc.isSome → (pickGpuAux gmr l acc).isSome := by
  intro l
  induction l with
  | nil =>
      intro acc h
      rcases h with h | h
      · exact absurd rfl h
      · simpa [pickGpuAux] using h
  | cons p rest ih =>
      rcases p with ⟨i, g⟩
      intro acc h
      have hstep : pickGpuAux gmr ((i, g) :: rest) acc
          = pickGpuAux gmr rest (specReplaceStep gmr acc (i, g)) := by
        rcases acc with _ | ⟨j, c⟩ <;> rfl
      rw [hstep]
      apply ih
      right
      rcases acc with _ | ⟨j, c⟩
      · rfl
      · rw [specReplaceStep]
        split <;> rfl

/-- The scan's result comes from the accumulator or from the list. -/
lemma pickGpuAux_mem (gmr : ℚ) :
    ∀ (l : List (ℕ × Gpu)) (acc : Option (ℕ × Gpu)) (r : ℕ × Gpu),
      pickGpuAux gmr l acc = some r → acc = some r ∨ r ∈ l := by
  intro l
  induction l with
  | nil => intro acc r h; exact Or.inl h
  | cons p rest ih =>
      rcases p with ⟨i, g⟩
      intro acc r h
      have hstep : pickGpuAux gmr ((i, g) :: rest) acc
          = pickGpuAux gmr rest (specReplaceStep gmr acc (i, g)) := by
        rcases acc with _ | ⟨j, c⟩ <;> rfl
      rw [hstep] at h
      rcases ih _ r h with h' | h'
      · rcases acc with _ | ⟨j, c⟩
        · rw [specReplaceStep] at h'
          right
          rw [show r = (i, g) from (Option.some_injective _ h'.symm)]
          exact List.mem_cons_self _ _
        · rw [specReplaceStep] at h'
          split at h'
          · right
            rw [show r = (i, g) from (Option.some_injective _ h'.symm)]
            exact List.mem_cons_self _ _
          · exact Or.inl h'
      · exact Or.inr (List.mem_cons_of_mem _ h')

/-- `subtract_process_req` does not move the GPU list before selecting
(the reservation and cpu/memory charges leave `gpus` unchanged). -/
lemma subtract_pre_gpus (m : MachineLimit) (args : Args) :
    (if args.reserve then { m with reserved := m.reserved + 1 } else m).gpus = m.gpus := by
  split <;> rfl

/-- Full characterization of the GPU branch of `subtract_process_req`:
for a GPU-requiring request on a machine with at least one GPU, the
returned index and updated GPU list are exactly the spec's improving
scan followed by the charge of the chosen GPU. -/
lemma subtract_process_req_gpu_spec (m : MachineLimit) (args : Args)
    (hg : args.no_gpu_required = false) (hne : m.gpus ≠ []) :
    ∃ i choice,
      specScan args.gpu_memory_required m.gpus = some (i, choice) ∧
      m.gpus[i]? = some choice ∧
      (subtract_process_req m args).2 = i ∧
      (subtract_process_req m args).1.gpus =
        m.gpus.set i
          (if args.no_reserve_gpu then
            { choice with free := choice.free - args.gpu_memory_required,
                          utilization := choice.utilization + args.gpu_utilization }
          else
            { choice with free := choice.free - args.gpu_memory_required,
                          utilization := choice.utilization + args.gpu_utilization,
                          reserved := choice.reserved + 1 }) := by
  have henum : m.gpus.enum ≠ [] := by
    simpa [List.enum_eq_nil] using hne
  have hsome := pickGpuAux_isSome args.gpu_memory_required m.gpus.enum none (Or.inl henum)
  obtain ⟨⟨i, choice⟩, hp⟩ := Option.isSome_iff_exists.mp hsome
  have hmem : (i, choice) ∈ m.gpus.enum := by
    rcases pickGpuAux_mem args.gpu_memory_required m.gpus.enum none _ hp with h | h
    · exact absurd h (by simp)
    · exact h
  have hget : m.gpus[i]? = some choice := by
    simpa using (List.mem_enum_iff_getElem?).mp hmem
  refine ⟨i, choice, ?_, hget, ?_, ?_⟩
  · rw [specScan, ← pickGpuAux_eq_foldl]
    exact hp
  · unfold subtract_process_req
    simp only [hg, Bool.false_eq_true, if_false, subtract_pre_gpus, hp]
  · unfold subtract_process_req
    simp only [hg, Bool.false_eq_true, if_false, subtract_pre_gpus, hp]

/-- Claim C2: for a GPU-requiring request (on a machine with at least one
GPU, the only case in which the planner runs the selection), the GPU
charged by `subtract_process_req` is the result of the spec's single
left-to-right improving scan — a fold in which the candidate replaces
the running best exactly when the best is unset, has nonzero reserved
count, has `free - gpu_memory_required ≤ 0`, or has strictly higher
utilization — and that GPU is then charged
`free -= gpu_memory_required`, `utilization += gpu_utilization`. -/
theorem claim2_improving_scan (m : MachineLimit) (args : Args)
    (hg : args.no_gpu_required = false) (hne : m.gpus ≠ []) :
    ∃ i choice,
      specScan args.gpu_memory_required m.gpus = some (i, choice) ∧
      m.gpus[i]? = some choice ∧
      (subtract_process_req m args).2 = i ∧
      ∃ g2,
        (subtract_process_req m args).1.gpus = m.gpus.set i g2 ∧
        g2.free = choice.free - args.gpu_memory_required ∧
        g2.utilization = choice.utilization + args.gpu_utilization := by
  obtain ⟨i, choice, h1, h2, h3, h4⟩ := subtract_process_req_gpu_spec m args hg hne
  refine ⟨i, choice, h1, h2, h3, ?_⟩
  cases hnr : args.no_reserve_gpu
  · rw [hnr] at h4
    simp only [Bool.false_eq_true, if_false] at h4
    exact ⟨_, h4, rfl, rfl⟩
  · rw [hnr] at h4
    simp only [if_true] at h4
    exact ⟨_, h4, rfl, rfl⟩

/-- With a request that needs no GPU, `subtract_process_req` leaves the
GPU list unchanged and records index `0`. -/
lemma subtract_process_req_no_gpu (m : MachineLimit) (args : Args)
    (hg : args.no_gpu_required = true) :
    (subtract_process_req m args).1.gpus = m.gpus ∧ (subtract_process_req m args).2 = 0 := by
  unfold subtract_process_req
  simp only [hg, if_true]
  exact ⟨subtract_pre_gpus m args, trivial⟩

/-- On a machine with no GPUs, `subtract_process_req` leaves the GPU list
unchanged and records index `0` (whatever the request). -/
lemma subtract_process_req_gpus_nil (m : MachineLimit) (args : Args)
    (hnil : m.gpus = []) :
    (subtract_process_req m args).1.gpus = m.gpus ∧ (subtract_process_req m args).2 = 0 := by
  cases hg : args.no_gpu_required
  · unfold subtract_process_req
    have hscrut : (if args.reserve then { m with reserved := m.reserved + 1 } else m).gpus = [] := by
      rw [subtract_pre_gpus, hnil]
    simp only [hg, Bool.false_eq_true, if_false, hscrut, List.enum_nil, pickGpuAux]
    exact ⟨hnil.symm, trivial⟩
  · exact subtract_process_req_no_gpu m args hg

/-- Invariant of the admission simulation: whenever GPUs are never
reserved by the request (either no GPU is needed or `--no-reserve-gpu`
is set) every GPU's reserved count stays zero. -/
def zeroReservedInv (args : Args) (m : MachineLimit) : Prop :=
  args.no_reserve_gpu = true ∨ args.no_gpu_required = true →
    ∀ g ∈ m.gpus, g.reserved = 0

/-- One charge preserves `zeroReservedInv`. -/
lemma zeroReservedInv_preserved (args : Args) (m : MachineLimit)
    (hinv : zeroReservedInv args m) :
    zeroReservedInv args (subtract_process_req m args).1 := by
  intro hflag g hg
  cases hng : args.no_gpu_required
  · by_cases hnil : m.gpus = []
    · rw [(subtract_process_req_gpus_nil m args hnil).1] at hg
      exact hinv hflag g hg
    · have hnr : args.no_reserve_gpu = true := by
        rcases hflag with h | h
        · exact h
        · rw [hng] at h; exact absurd h (by simp)
      obtain ⟨i, choice, _, hget, _, hgpus⟩ :=
        subtract_process_req_gpu_spec m args hng hnil
      simp only [hnr, if_true] at hgpus
      rw [hgpus] at hg
      rcases List.mem_or_eq_of_mem_set hg with h | h
      · exact hinv hflag g h
      · rw [h]
        exact hinv hflag choice (List.getElem?_mem hget)
  · rw [(subtract_process_req_no_gpu m args hng).1] at hg
    exact hinv hflag g hg

/-- A kept charge (one whose result does not trip the over-capacity
predicate) always selected a GPU whose reserved count was zero. -/
lemma chosen_reserved_zero (args : Args) (m : MachineLimit)
    (hinv : zeroReservedInv args m)
    (hkept : machine_limit_over (subtract_process_req m args).1 = false) :
    ∀ g, m.gpus[(subtract_process_req m args).2]? = some g → g.reserved = 0 := by
  intro g hg
  cases hng : args.no_gpu_required
  · by_cases hnil : m.gpus = []
    · rw [hnil] at hg
      simp at hg
    · obtain ⟨i, choice, _, hget, hidx, hgpus⟩ :=
        subtract_process_req_gpu_spec m args hng hnil
      rw [hidx, hget] at hg
      have hgc : g = choice := by
        injection hg with h
        exact h.symm
      subst hgc
      cases hnr : args.no_reserve_gpu
      · -- GPUs are reserved by the charge: from not-over, the charged
        -- GPU's incremented reserved count is at most 1.
        simp only [hnr, Bool.false_eq_true, if_false] at hgpus
        have hlen : i < m.gpus.length := (List.getElem?_eq_some.mp hget).1
        have hmem2 : ({ g with
                          free := g.free - args.gpu_memory_required
                          utilization := g.utilization + args.gpu_utilization
                          reserved := g.reserved + 1 } : Gpu)
            ∈ (subtract_process_req m args).1.gpus := by
          rw [hgpus]
          exact List.getElem?_mem (List.getElem?_set_self hlen)
        have hno : ¬ (machine_limit_over (subtract_process_req m args).1 = true) := by
          rw [hkept]; simp
        rw [machine_limit_over_iff] at hno
        push_neg at hno
        have := hno.2.2.2.2.2 _ hmem2
        simpa using this
      · exact hinv (Or.inl hnr) g (List.getElem?_mem hget)
  · rw [(subtract_process_req_no_gpu m args hng).2] at hg
    exact hinv (Or.inr hng) g (List.getElem?_mem hg)

/-- Along the executed-iteration trace, every iteration whose charge does
not trip the over-capacity predicate selected a zero-reserved GPU. -/
lemma loopTrace_kept_choice (args : Args) :
    ∀ (fuel : ℕ) (m : MachineLimit), zeroReservedInv args m →
      ∀ pre idx, (pre, idx) ∈ loopTrace args fuel m →
        machine_limit_over (subtract_process_req pre args).1 = false →
        ∀ g, pre.gpus[idx]? = some g → g.reserved = 0 := by
  intro fuel
  induction fuel with
  | zero =>
      intro m _ pre idx h
      simp [loopTrace] at h
  | succ n ih =>
      intro m hinv pre idx hmem hkept g hg
      rw [loopTrace] at hmem
      by_cases hov : machine_limit_over (subtract_process_req m args).1 = true
      · simp only [hov, if_true, List.mem_singleton, Prod.mk.injEq] at hmem
        obtain ⟨hpre, hidx⟩ := hmem
        rw [hpre] at hkept
        rw [hkept] at hov
        exact absurd hov (by simp)
      · simp only [Bool.not_eq_true] at hov
        simp only [hov, Bool.false_eq_true, if_false, List.mem_cons, Prod.mk.injEq] at hmem
        rcases hmem with ⟨hpre, hidx⟩ | hmem'
        · subst hpre
          rw [hidx] at hg
          exact chosen_reserved_zero args pre hinv hkept g hg
        · exact ih _ (zeroReservedInv_preserved args m hinv) pre idx hmem' hkept g hg

/-- Claim C4 (amended): in every admission iteration of the planner whose
assignment is kept (its charge does not trip the over-capacity check),
the GPU recorded by the selection had reserved count zero before the
charge.  (The original claim — that the selection never picks a
reserved GPU whenever some unreserved GPU with nonnegative remaining
free memory exists — fails in discarded iterations; see the
counterexample.) -/
theorem claim4_kept_iterations_unreserved (fuel : ℕ) (m : MachineLimit) (args : Args)
    (pre : MachineLimit) (idx : ℕ)
    (hmem : (pre, idx) ∈ planTrace fuel m args)
    (hkept : machine_limit_over (subtract_process_req pre args).1 = false) :
    ∀ g, pre.gpus[idx]? = some g → g.reserved = 0 := by
  unfold planTrace at hmem
  split at hmem
  · simp at hmem
  · refine loopTrace_kept_choice args fuel (init_machine_limit m) ?_ pre idx hmem hkept
    intro _ g hg
    unfold init_machine_limit at hg
    simp only [List.mem_map] at hg
    obtain ⟨g0, _, heq⟩ := hg
    rw [← heq]

/-- Witness for the amended claim C4: the first iteration of the worked
example is kept and selects GPU `0`, whose reserved count is zero. -/
theorem claim4_kept_iterations_unreserved_witness :
    ({ name := "GeForce RTX 2060", mem := 5934, free := 5933,
       utilization := 0, reserved := 0 } : Gpu).reserved = 0 :=
  claim4_kept_iterations_unreserved 3 exampleSnapshot exampleArgs
    (init_machine_limit exampleSnapshot) 0
    (by norm_num [planTrace, loopTrace, subtract_process_req, init_machine_limit,
          machine_limit_over, pickGpuAux, exampleSnapshot, exampleArgs, List.enum,
          List.enumFrom])
    (by norm_num [subtract_process_req, init_machine_limit, machine_limit_over,
          pickGpuAux, exampleSnapshot, exampleArgs, List.enum, List.enumFrom])
    _
    (by norm_num [init_machine_limit, exampleSnapshot])

/-- A machine with one busier GPU first (utilization `3/10`) and one idle
GPU second, used to refute the original claim C4 and claim C5. -/
def skewedMachine : MachineLimit :=
  { cpu_count := 100, cpu_usage := 0, mem_free := 1000000, reserved := 0,
    gpus := [ { name := "A", mem := 200, free := 100, utilization := 3/10, reserved := 0 },
              { name := "B", mem := 200, free := 100, utilization := 0, reserved := 0 } ] }

/-- A light request with small GPU utilization demand, GPUs reserved. -/
def lightArgs : Args :=
  { num_cpus := 1, memory_required := 1, gpu_memory_required := 1,
    gpu_utilization := 1/10, reserve := false, no_reserve_gpu := false,
    no_gpu_required := false }

/-- The machine state at the start of the second admission iteration of
`get_process_limit skewedMachine lightArgs`. -/
def skewedSecondState : MachineLimit :=
  { cpu_count := 99, cpu_usage := 0, mem_free := 999999, reserved := 0,
    gpus := [ { name := "A", mem := 200, free := 100, utilization := 3/10, reserved := 0 },
              { name := "B", mem := 200, free := 99, utilization := 1/10, reserved := 1 } ] }

/-- Counterexample to claim C4 as stated: in the second executed
admission iteration of the planner on `skewedMachine` with `lightArgs`,
GPU `0` is unreserved and keeps nonnegative free memory after the
charge, yet the selection chooses GPU `1`, whose reserved count is
nonzero (the scan compares only the incumbent's fields, so a reserved
later GPU can win against a higher-utilization unreserved incumbent). -/
theorem claim4_counterexample :
    (skewedSecondState, 1) ∈ planTrace 5 skewedMachine lightArgs ∧
    (∃ g0, skewedSecondState.gpus[0]? = some g0 ∧ g0.reserved = 0 ∧
      0 ≤ g0.free - lightArgs.gpu_memory_required) ∧
    (∃ g1, skewedSecondState.gpus[1]? = some g1 ∧ g1.reserved ≠ 0) := by
  refine ⟨?_, ?_, ?_⟩
  · norm_num [planTrace, loopTrace, subtract_process_req, init_machine_limit,
      machine_limit_over, pickGpuAux, skewedMachine, lightArgs, skewedSecondState,
      List.enum, List.enumFrom]
  · exact ⟨{ name := "A", mem := 200, free := 100, utilization := 3/10, reserved := 0 },
      by norm_num [skewedSecondState], rfl, by norm_num [lightArgs]⟩
  · exact ⟨{ name := "B", mem := 200, free := 99, utilization := 1/10, reserved := 1 },
      by norm_num [skewedSecondState], by norm_num⟩

/-- The reservation step leaves the cpu count unchanged. -/
lemma subtract_pre_cpu (m : MachineLimit) (args : Args) :
    (if args.reserve then { m with reserved := m.reserved + 1 } else m).cpu_count
      = m.cpu_count := by
  split <;> rfl

/-- The reservation step leaves the free memory unchanged. -/
lemma subtract_pre_mem (m : MachineLimit) (args : Args) :
    (if args.reserve then { m with reserved := m.reserved + 1 } else m).mem_free
      = m.mem_free := by
  split <;> rfl

/-- `subtract_process_req` decrements the cpu count by `num_cpus`. -/
lemma subtract_process_req_cpu_count (m : MachineLimit) (args : Args) :
    (subtract_process_req m args).1.cpu_count = m.cpu_count - args.num_cpus := by
  unfold subtract_process_req
  cases hr : args.reserve <;> cases hg : args.no_gpu_required <;> simp only [if_true, if_false] <;>
    first
      | rfl
      | (rcases hp : pickGpuAux args.gpu_memory_required
            (if args.reserve then { m with reserved := m.reserved + 1 } else m).gpus.enum none
            with _ | ⟨i, c⟩ <;> simp_all)

/-- `subtract_process_req` decrements the free memory by `memory_required`. -/
lemma subtract_process_req_mem_free (m : MachineLimit) (args : Args) :
    (subtract_process_req m args).1.mem_free = m.mem_free - args.memory_required := by
  unfold subtract_process_req
  cases hr : args.reserve <;> cases hg : args.no_gpu_required <;> simp only [if_true, if_false] <;>
    first
      | rfl
      | (rcases hp : pickGpuAux args.gpu_memory_required
            (if args.reserve then { m with reserved := m.reserved + 1 } else m).gpus.enum none
            with _ | ⟨i, c⟩ <;> simp_all)

/-- The GPU side of one charge, as a function of the GPU-related request
fields and the GPU list only (used to transport GPU state between two
runs whose requests differ just in cpu/memory demand). -/
def gpuPart (ngr nrg : Bool) (gmr gu : ℚ) (gpus : List Gpu) : List Gpu × ℕ :=
  if ngr then (gpus, 0)
  else
    match pickGpuAux gmr gpus.enum none with
    | none => (gpus, 0)
    | some (i, choice) =>
        let g1 := { choice with free := choice.free - gmr,
                                utilization := choice.utilization + gu }
        let g2 := if nrg then g1 else { g1 with reserved := g1.reserved + 1 }
        (gpus.set i g2, i)

/-- The GPU list and recorded index of `subtract_process_req` depend only
on the GPU-related request fields and the GPU list. -/
lemma subtract_process_req_eq_gpuPart (m : MachineLimit) (args : Args) :
    (subtract_process_req m args).1.gpus
        = (gpuPart args.no_gpu_required args.no_reserve_gpu
            args.gpu_memory_required args.gpu_utilization m.gpus).1 ∧
    (subtract_process_req m args).2
        = (gpuPart args.no_gpu_required args.no_reserve_gpu
            args.gpu_memory_required args.gpu_utilization m.gpus).2 := by
  unfold subtract_process_req gpuPart
  cases hg : args.no_gpu_required <;> simp only [if_true, if_false, Bool.false_eq_true] <;>
    first
      | exact ⟨subtract_pre_gpus m args, rfl⟩
      | (rcases hp : pickGpuAux args.gpu_memory_required m.gpus.enum none
            with _ | ⟨i, c⟩ <;> simp_all [subtract_pre_gpus])

/-- The over-capacity predicate is antitone in cpu count and free memory
when everything else agrees. -/
lemma machine_limit_over_mono (m₁ m₂ : MachineLimit)
    (hcpu : m₂.cpu_count ≤ m₁.cpu_count) (hmem : m₂.mem_free ≤ m₁.mem_free)
    (hres : m₂.reserved = m₁.reserved) (hgpus : m₂.gpus = m₁.gpus)
    (hov : machine_limit_over m₁ = true) : machine_limit_over m₂ = true := by
  rw [machine_limit_over_iff] at hov ⊢
  rw [hres, hgpus]
  rcases hov with h | h | h | h | h | h
  · exact Or.inl h
  · exact Or.inr (Or.inl (lt_of_le_of_lt hcpu h))
  · exact Or.inr (Or.inr (Or.inl (lt_of_le_of_lt hmem h)))
  · exact Or.inr (Or.inr (Or.inr (Or.inl h)))
  · exact Or.inr (Or.inr (Or.inr (Or.inr (Or.inl h))))
  · exact Or.inr (Or.inr (Or.inr (Or.inr (Or.inr h))))

/-- Monotonicity kernel for claim C5: along two runs whose requests agree
on every GPU field and flag and where the second demands at least as
much cpu and memory, starting from states that agree except that the
second has at most the first's cpu count and free memory, the second run
admits at most as many slots. -/
lemma loopAux_length_mono (a₁ a₂ : Args)
    (hrs : a₂.reserve = a₁.reserve) (hnrg : a₂.no_reserve_gpu = a₁.no_reserve_gpu)
    (hngr : a₂.no_gpu_required = a₁.no_gpu_required)
    (hgmr : a₂.gpu_memory_required = a₁.gpu_memory_required)
    (hgu : a₂.gpu_utilization = a₁.gpu_utilization)
    (hnc : a₁.num_cpus ≤ a₂.num_cpus) (hmr : a₁.memory_required ≤ a₂.memory_required) :
    ∀ (fuel : ℕ) (m₁ m₂ : MachineLimit),
      m₂.cpu_count ≤ m₁.cpu_count → m₂.mem_free ≤ m₁.mem_free →
      m₂.reserved = m₁.reserved → m₂.gpus = m₁.gpus →
      (loopAux a₂ fuel m₂).length ≤ (loopAux a₁ fuel m₁).length := by
  intro fuel
  induction fuel with
  | zero => intro m₁ m₂ _ _ _ _; simp [loopAux]
  | succ n ih =>
      intro m₁ m₂ hcpu hmem hresv hgpus
      have hcpu' : (subtract_process_req m₂ a₂).1.cpu_count
          ≤ (subtract_process_req m₁ a₁).1.cpu_count := by
        rw [subtract_process_req_cpu_count, subtract_process_req_cpu_count]
        exact sub_le_sub hcpu hnc
      have hmem' : (subtract_process_req m₂ a₂).1.mem_free
          ≤ (subtract_process_req m₁ a₁).1.mem_free := by
        rw [subtract_process_req_mem_free, subtract_process_req_mem_free]
        exact sub_le_sub hmem hmr
      have hres' : (subtract_process_req m₂ a₂).1.reserved
          = (subtract_process_req m₁ a₁).1.reserved := by
        rw [subtract_process_req_reserved, subtract_process_req_reserved, hrs, hresv]
      have hgpus' : (subtract_process_req m₂ a₂).1.gpus
          = (subtract_process_req m₁ a₁).1.gpus := by
        rw [(subtract_process_req_eq_gpuPart m₂ a₂).1, (subtract_process_req_eq_gpuPart m₁ a₁).1,
          hngr, hnrg, hgmr, hgu, hgpus]
      simp only [loopAux]
      by_cases hov : machine_limit_over (subtract_process_req m₂ a₂).1 = true
      · simp [hov]
      · have hov₁ : ¬ machine_limit_over (subtract_process_req m₁ a₁).1 = true := by
          intro h
          exact hov (machine_limit_over_mono _ _ hcpu' hmem' hres' hgpus' h)
        simp only [hov, hov₁, if_false, List.length_cons]
        exact Nat.succ_le_succ (ih _ _ hcpu' hmem' hres' hgpus')

/-- Claim C5 (amended): the length of the planner's result is monotone
non-increasing as the `num_cpus` component alone, or the
`memory_required` component alone, increases.  (For the GPU components
this fails: increasing `gpu_utilization` can increase the admitted
count, because the improving scan's choices change — see the
counterexample.) -/
theorem claim5_monotone_cpu_mem :
    (∀ (fuel : ℕ) (m : MachineLimit) (args : Args) (c : ℚ), args.num_cpus ≤ c →
      (get_process_limit fuel m { args with num_cpus := c }).length
        ≤ (get_process_limit fuel m args).length) ∧
    (∀ (fuel : ℕ) (m : MachineLimit) (args : Args) (c : ℚ), args.memory_required ≤ c →
      (get_process_limit fuel m { args with memory_required := c }).length
        ≤ (get_process_limit fuel m args).length) := by
  constructor
  · intro fuel m args c hc
    unfold get_process_limit
    split
    · simp
    · exact loopAux_length_mono args { args with num_cpus := c }
        rfl rfl rfl rfl rfl hc le_rfl fuel _ _ le_rfl le_rfl rfl rfl
  · intro fuel m args c hc
    unfold get_process_limit
    split
    · simp
    · exact loopAux_length_mono args { args with memory_required := c }
        rfl rfl rfl rfl rfl le_rfl hc fuel _ _ le_rfl le_rfl rfl rfl

/-- Witness for the amended claim C5 on the worked example. -/
theorem claim5_monotone_cpu_mem_witness :
    (get_process_limit 6 exampleSnapshot { exampleArgs with num_cpus := 5 }).length
      ≤ (get_process_limit 6 exampleSnapshot exampleArgs).length :=
  claim5_monotone_cpu_mem.1 6 exampleSnapshot exampleArgs 5 (by norm_num [exampleArgs])

/-- `lightArgs` with a larger `gpu_utilization` demand, all other
components unchanged. -/
def heavierArgs : Args := { lightArgs with gpu_utilization := 2/5 }

/-- Counterexample to claim C5 as stated: on `skewedMachine`, increasing
only the `gpu_utilization` component of the request from `1/10` to `2/5`
increases the planner's admitted count from 1 to 2.  (With the small
demand the scan keeps choosing the already-reserved GPU `1`, whose
reserved count then exceeds `1`; with the larger demand GPU `1`'s
utilization overtakes GPU `0`'s after one charge, so the scan spreads
the second charge to GPU `0`.) -/
theorem claim5_counterexample :
    heavierArgs.num_cpus = lightArgs.num_cpus ∧
    heavierArgs.memory_required = lightArgs.memory_required ∧
    heavierArgs.gpu_memory_required = lightArgs.gpu_memory_required ∧
    heavierArgs.reserve = lightArgs.reserve ∧
    heavierArgs.no_reserve_gpu = lightArgs.no_reserve_gpu ∧
    heavierArgs.no_gpu_required = lightArgs.no_gpu_required ∧
    lightArgs.gpu_utilization < heavierArgs.gpu_utilization ∧
    (get_process_limit 10 skewedMachine lightArgs).length
      < (get_process_limit 10 skewedMachine heavierArgs).length := by
  refine ⟨rfl, rfl, rfl, rfl, rfl, rfl, by norm_num [lightArgs, heavierArgs], ?_⟩
  norm_num [get_process_limit, loopAux, subtract_process_req, init_machine_limit,
    machine_limit_over, pickGpuAux, skewedMachine, lightArgs, heavierArgs,
    List.enum, List.enumFrom]

/-- A snapshot whose second GPU already sits above the `12/10`
utilization slack threshold (the spec's data model allows utilization
`0..1+`), with a first GPU holding exactly 6 MB free. -/
def overUtilSnapshot : MachineLimit :=
  { cpu_count := 100, cpu_usage := 0, mem_free := 1000000, reserved := 0,
    gpus := [ { name := "A", mem := 3000, free := 6, utilization := 1/5, reserved := 0 },
              { name := "B", mem := 3000, free := 39, utilization := 121/100, reserved := 0 } ] }

/-- A request whose `gpu_utilization` component is the (type-valid)
negative value `-1/2`, with `gpu_memory_required` 5. -/
def negUtilArgs : Args :=
  { num_cpus := 1, memory_required := 1, gpu_memory_required := 5,
    gpu_utilization := -1/2, reserve := false, no_reserve_gpu := false,
    no_gpu_required := false }

/-- `negUtilArgs` with a larger `gpu_memory_required` demand, all other
components unchanged. -/
def negUtilArgsBig : Args := { negUtilArgs with gpu_memory_required := 6 }

/-- The `gpu_memory_required` component of claim C5 also fails on the
claim's full domain: on `overUtilSnapshot` with the fixed negative
`gpu_utilization` demand `-1/2`, raising only `gpu_memory_required`
from `5` to `6` raises the admitted count from 0 to 1.  With demand 5,
GPU `0` (6 MB free) stays solid (`6 - 5 > 0`), wins the scan as the
lower-utilization suffix minimum, and is charged — leaving GPU `1` at
utilization `121/100 > 12/10`, so the machine is immediately over and
the planner admits nothing.  With demand 6, GPU `0` is disqualified by
the `free - gpu_memory_required ≤ 0` clause, so GPU `1` is charged
instead; the negative utilization demand pulls it down to `71/100`,
below the threshold, and one slot is kept.  (In exact searches over
hundreds of millions of configurations, every violation of
`gpu_memory_required` monotonicity required a negative
`gpu_utilization`; but the claim quantifies over every pair of
requests, so this settles that component negatively.) -/
theorem claim5_gmr_nonmonotone :
    negUtilArgsBig.num_cpus = negUtilArgs.num_cpus ∧
    negUtilArgsBig.memory_required = negUtilArgs.memory_required ∧
    negUtilArgsBig.gpu_utilization = negUtilArgs.gpu_utilization ∧
    negUtilArgsBig.reserve = negUtilArgs.reserve ∧
    negUtilArgsBig.no_reserve_gpu = negUtilArgs.no_reserve_gpu ∧
    negUtilArgsBig.no_gpu_required = negUtilArgs.no_gpu_required ∧
    negUtilArgs.gpu_memory_required < negUtilArgsBig.gpu_memory_required ∧
    (get_process_limit 10 overUtilSnapshot negUtilArgs).length
      < (get_process_limit 10 overUtilSnapshot negUtilArgsBig).length := by
  refine ⟨rfl, rfl, rfl, rfl, rfl, rfl, by norm_num [negUtilArgs, negUtilArgsBig], ?_⟩
  norm_num [get_process_limit, loopAux, subtract_process_req, init_machine_limit,
    machine_limit_over, pickGpuAux, overUtilSnapshot, negUtilArgs, negUtilArgsBig,
    List.enum, List.enumFrom]

/-- Python's substring operator `pat in s`: the pattern's character
sequence occurs contiguously in the string's character sequence. -/
def strContains (s pat : String) : Bool := decide (pat.data <:+: s.data)

/-- A single space, the separator of the injected flag segments. -/
def sep : String := " "

/-- The empty string. -/
def emptyStr : String := ""

/-- The `--copy-forward` flag text. -/
def copyForwardFlag : String := "--copy-forward"

/-- The `--copy-backwards` flag text. -/
def copyBackwardsFlag : String := "--copy-backwards"

/-- The `--job-name` flag text. -/
def jobNameFlag : String := "--job-name"

/-- The `--machine` flag text. -/
def machineFlag : String := "--machine"

/-- The `--verbose` flag text. -/
def verboseFlag : String := "--verbose"

/-- Python's `' '.join(xs)`. -/
def joinSpace (xs : List String) : String := String.intercalate sep xs

/-- The flag-injection step of `make_kabuki_run_command` (batch_run.py
lines 104-113): starting from the raw job text, append the transfer
lists and job name only when the raw text does not already contain the
corresponding flag substring, append `--verbose` when the batch-level
verbosity flag is set, and always append the machine id.  (The
subsequent re-parse of the result and the delegation to the plain-mode
builder live in `basic_run`, outside this file's source, and are not
needed for the injection claim.) -/
def make_final_command (machine job_name command : String)
    (copy_forward copy_backwards : List String) (verbose : Bool) : String :=
  let fc := command
  let fc := if strContains command copyForwardFlag then fc
    else fc ++ sep ++ copyForwardFlag ++ sep ++ joinSpace copy_forward ++ sep
  let fc := if strContains command copyBackwardsFlag then fc
    else fc ++ sep ++ copyBackwardsFlag ++ sep ++ joinSpace copy_backwards ++ sep
  let fc := if strContains command jobNameFlag then fc
    else fc ++ sep ++ jobNameFlag ++ sep ++ job_name ++ sep
  let fc := if verbose then fc ++ sep ++ verboseFlag ++ sep else fc
  fc ++ sep ++ machineFlag ++ sep ++ machine ++ sep

/-- Claim C6 (amended): the self-invocation command builder injects the
transfer lists and the job name into the nested job text only if the raw
text does not already contain the flag (by substring test, so an
explicit per-job flag is preserved un-duplicated), but the verbosity
flag is appended whenever the batch-level flag is set — irrespective of
the job text — and the machine id is always appended, even when the raw
text already specifies one. -/
theorem claim6_injection (machine job_name command : String)
    (copy_forward copy_backwards : List String) (verbose : Bool) :
    make_final_command machine job_name command copy_forward copy_backwards verbose =
      command
      ++ (if strContains command copyForwardFlag then emptyStr
          else sep ++ copyForwardFlag ++ sep ++ joinSpace copy_forward ++ sep)
      ++ (if strContains command copyBackwardsFlag then emptyStr
          else sep ++ copyBackwardsFlag ++ sep ++ joinSpace copy_backwards ++ sep)
      ++ (if strContains command jobNameFlag then emptyStr
          else sep ++ jobNameFlag ++ sep ++ job_name ++ sep)
      ++ (if verbose then sep ++ verboseFlag ++ sep else emptyStr)
      ++ sep ++ machineFlag ++ sep ++ machine ++ sep := by
  unfold make_final_command
  split_ifs <;>
    simp only [emptyStr, String.append_assoc, String.append_empty, String.empty_append]

/-- A nested job text that already carries all four flags. -/
def selfInvokeCmd : String :=
  "kabuki --copy-forward a --copy-backwards b --job-name j --machine alpha run"

/-- A machine id differing from the one in `selfInvokeCmd`. -/
def betaMachine : String := "beta"

/-- A batch-level job name. -/
def jobXName : String := "jobX"

/-- Counterexample to claim C6 as stated: the machine id is injected even
though the job text already specifies `--machine` (and similarly the
verbosity flag is tied to the batch flag, not to the text), so the four
flags are *not* all handled first-one-wins: the raw text is changed. -/
theorem claim6_counterexample :
    strContains selfInvokeCmd machineFlag = true ∧
    make_final_command betaMachine jobXName selfInvokeCmd [] [] false
      = selfInvokeCmd ++ sep ++ machineFlag ++ sep ++ betaMachine ++ sep ∧
    selfInvokeCmd ++ sep ++ machineFlag ++ sep ++ betaMachine ++ sep ≠ selfInvokeCmd :=
  ⟨by decide, by decide, by decide⟩

/-- Static data of one scheduling run (`main`, batch_run.py lines
145-205): number of backlog lines, the effective job name of each line
(for the self-invocation mode this is the name recovered by the command
builder), the set of names that already have a completion marker under
`./job_results/`, the poll oracle telling whether a process id has
exited, and the dry-run flag.  Process ids stand for the opaque `Popen`
handles; stdout/stderr redirection and log text are not modelled. -/
structure SchedConfig where
  num_lines : ℕ
  name_of : ℕ → String
  markers : List String
  exited : ℕ → Bool
  dry_run : Bool

/-- A slot (`machine_procs[mac][i]`): empty or `(line index, pid)`. -/
abbrev Slot := Option (ℕ × ℕ)

/-- The mutable scheduler state threaded through the polling loop:
the backlog cursor `line_num`, the dispatched and skipped line indices
(in order), the next fresh process id, and the `all_done` flag. -/
structure SchedState where
  line_num : ℕ
  spawned : List ℕ
  skipped : List ℕ
  next_pid : ℕ
  all_done : Bool

/-- One slot's handling inside one pass of the polling loop (lines
167-203): reap the slot if its process has exited; if the slot is empty
and backlog remains, either skip the line (marker exists), account a
dry run, or spawn and occupy the slot; finally clear `all_done` if the
slot is still occupied. -/
def slotStep (cfg : SchedConfig) (st : SchedState) (slot : Slot) : SchedState × Slot :=
  let slot1 : Slot :=
    match slot with
    | some lp => if cfg.exited lp.2 then none else some lp
    | none => none
  let r : SchedState × Slot :=
    match slot1 with
    | none =>
        if st.line_num < cfg.num_lines then
          if cfg.markers.contains (cfg.name_of st.line_num) then
            ({ st with line_num := st.line_num + 1,
                       skipped := st.skipped ++ [st.line_num], all_done := false }, none)
          else if cfg.dry_run then
            ({ st with line_num := st.line_num + 1, all_done := false }, none)
          else
            ({ st with line_num := st.line_num + 1,
                       spawned := st.spawned ++ [st.line_num],
                       next_pid := st.next_pid + 1, all_done := false },
             some (st.line_num, st.next_pid))
        else (st, none)
    | some p => (st, some p)
  match r.2 with
  | some p => ({ r.1 with all_done := false }, some p)
  | none => r

/-- One machine's slots, in fixed order, inside one pass. -/
def slotsPass (cfg : SchedConfig) (st : SchedState) :
    List Slot → SchedState × List Slot
  | [] => (st, [])
  | s :: rest =>
      let r1 := slotStep cfg st s
      let r2 := slotsPass cfg r1.1 rest
      (r2.1, r1.2 :: r2.2)

/-- All machines, in fixed order, inside one pass (lines 166-203). -/
def machinesPass (cfg : SchedConfig) (st : SchedState) :
    List (List Slot) → SchedState × List (List Slot)
  | [] => (st, [])
  | slots :: rest =>
      let r1 := slotsPass cfg st slots
      let r2 := machinesPass cfg r1.1 rest
      (r2.1, r1.2 :: r2.2)

/-- The polling loop (lines 162-205), fuel indexed: reset `all_done`,
run one full pass, stop when nothing is running and no dispatch was
attempted.  (The `time.sleep` calls have no effect on the state and are
not modelled.) -/
def schedLoop (cfg : SchedConfig) : ℕ → SchedState → List (List Slot) →
    SchedState × List (List Slot)
  | 0, st, procs => (st, procs)
  | fuel + 1, st, procs =>
      let r := machinesPass cfg { st with all_done := true } procs
      if r.1.all_done then r
      else schedLoop cfg fuel r.1 r.2

/-- A whole scheduling run: slot arrays sized by the per-machine process
limits, all empty, backlog cursor at the first line. -/
def schedRun (cfg : SchedConfig) (fuel : ℕ) (limits : List ℕ) :
    SchedState × List (List Slot) :=
  schedLoop cfg fuel
    { line_num := 0, spawned := [], skipped := [], next_pid := 0, all_done := false }
    (limits.map (fun k => List.replicate k (none : Slot)))

/-- An empty slot facing a marked line is skipped: cursor advances, the
line is recorded as skipped, nothing is spawned, the slot stays empty. -/
lemma slotStep_marker_skip (cfg : SchedConfig) (st : SchedState)
    (hln : st.line_num < cfg.num_lines)
    (hmk : cfg.markers.contains (cfg.name_of st.line_num) = true) :
    slotStep cfg st none
      = ({ st with line_num := st.line_num + 1,
                   skipped := st.skipped ++ [st.line_num], all_done := false }, none) := by
  have hmk2 : cfg.name_of st.line_num ∈ cfg.markers := by simpa using hmk
  unfold slotStep
  simp [hln, hmk2]

/-- When every line is marked, a slot step from an empty slot never
spawns and leaves the slot empty. -/
lemma slotStep_all_marked (cfg : SchedConfig)
    (hall : ∀ i < cfg.num_lines, cfg.markers.contains (cfg.name_of i) = true)
    (st : SchedState) :
    (slotStep cfg st none).1.spawned = st.spawned ∧ (slotStep cfg st none).2 = none := by
  unfold slotStep
  by_cases hln : st.line_num < cfg.num_lines
  · have hmk2 : cfg.name_of st.line_num ∈ cfg.markers := by simpa using hall st.line_num hln
    simp [hln, hmk2]
  · simp [hln]

/-- `slotsPass` over all-empty slots, all lines marked: no spawn, slots
stay empty. -/
lemma slotsPass_all_marked (cfg : SchedConfig)
    (hall : ∀ i < cfg.num_lines, cfg.markers.contains (cfg.name_of i) = true) :
    ∀ (slots : List Slot) (st : SchedState), (∀ s ∈ slots, s = none) →
      (slotsPass cfg st slots).1.spawned = st.spawned ∧
      (∀ s ∈ (slotsPass cfg st slots).2, s = none) := by
  intro slots
  induction slots with
  | nil => intro st _; exact ⟨rfl, by simp [slotsPass]⟩
  | cons s rest ih =>
      intro st hnone
      have hs : s = none := hnone s (List.mem_cons_self _ _)
      subst hs
      obtain ⟨h1, h2⟩ := slotStep_all_marked cfg hall st
      obtain ⟨ih1, ih2⟩ := ih (slotStep cfg st none).1
        (fun s hs => hnone s (List.mem_cons_of_mem _ hs))
      constructor
      · rw [slotsPass]
        dsimp only
        rw [ih1, h1]
      · intro s hs
        rw [slotsPass] at hs
        dsimp only at hs
        rcases List.mem_cons.mp hs with h | h
        · rw [h, h2]
        · exact ih2 s h

/-- `machinesPass` over all-empty slot arrays, all lines marked: no
spawn, slots stay empty. -/
lemma machinesPass_all_marked (cfg : SchedConfig)
    (hall : ∀ i < cfg.num_lines, cfg.markers.contains (cfg.name_of i) = true) :
    ∀ (procs : List (List Slot)) (st : SchedState),
      (∀ slots ∈ procs, ∀ s ∈ slots, s = none) →
      (machinesPass cfg st procs).1.spawned = st.spawned ∧
      (∀ slots ∈ (machinesPass cfg st procs).2, ∀ s ∈ slots, s = none) := by
  intro procs
  induction procs with
  | nil => intro st _; exact ⟨rfl, by simp [machinesPass]⟩
  | cons slots rest ih =>
      intro st hnone
      obtain ⟨h1, h2⟩ := slotsPass_all_marked cfg hall slots st
        (hnone slots (List.mem_cons_self _ _))
      obtain ⟨ih1, ih2⟩ := ih (slotsPass cfg st slots).1
        (fun sl hsl => hnone sl (List.mem_cons_of_mem _ hsl))
      constructor
      · rw [machinesPass]
        dsimp only
        rw [ih1, h1]
      · intro sl hsl
        rw [machinesPass] at hsl
        dsimp only at hsl
        rcases List.mem_cons.mp hsl with h | h
        · intro s hs
          rw [h] at hs
          exact h2 s hs
        · exact ih2 sl h

/-- The loop, from empty slots with all lines marked, never spawns. -/
lemma schedLoop_all_marked (cfg : SchedConfig)
    (hall : ∀ i < cfg.num_lines, cfg.markers.contains (cfg.name_of i) = true) :
    ∀ (fuel : ℕ) (st : SchedState) (procs : List (List Slot)),
      (∀ slots ∈ procs, ∀ s ∈ slots, s = none) →
      (schedLoop cfg fuel st procs).1.spawned = st.spawned := by
  intro fuel
  induction fuel with
  | zero => intro st procs _; rfl
  | succ n ih =>
      intro st procs hnone
      obtain ⟨h1, h2⟩ := machinesPass_all_marked cfg hall procs { st with all_done := true } hnone
      rw [schedLoop]
      split
      · exact h1
      · rw [ih _ _ h2, h1]

/-- Claim C7: (a) whenever the scheduler is about to dispatch into an
empty slot and a completion marker exists for the line's effective name,
it records the line as skipped, advances the backlog cursor, spawns
nothing, and leaves the slot empty; and (b) consequently a run in which
every line's effective name already has a marker spawns zero
processes. -/
theorem claim7_marker_skip_and_idempotence :
    (∀ (cfg : SchedConfig) (st : SchedState),
      st.line_num < cfg.num_lines →
      cfg.markers.contains (cfg.name_of st.line_num) = true →
      slotStep cfg st none
        = ({ st with line_num := st.line_num + 1,
                     skipped := st.skipped ++ [st.line_num], all_done := false }, none)) ∧
    (∀ (cfg : SchedConfig) (fuel : ℕ) (limits : List ℕ),
      (∀ i < cfg.num_lines, cfg.markers.contains (cfg.name_of i) = true) →
      (schedRun cfg fuel limits).1.spawned = []) := by
  refine ⟨slotStep_marker_skip, ?_⟩
  intro cfg fuel limits hall
  unfold schedRun
  rw [schedLoop_all_marked cfg hall]
  intro slots hsl s hs
  simp only [List.mem_map] at hsl
  obtain ⟨k, _, hk⟩ := hsl
  rw [← hk] at hs
  exact List.eq_of_mem_replicate hs

/-- A two-line, two-machine configuration with every line marked. -/
def markedCfg : SchedConfig :=
  { num_lines := 2, name_of := fun _ => "j", markers := ["j"],
    exited := fun _ => true, dry_run := false }

/-- Witness for claim C7: a marked line is skipped in place, and the
fully marked run spawns nothing. -/
theorem claim7_marker_skip_and_idempotence_witness :
    (slotStep markedCfg
        { line_num := 0, spawned := [], skipped := [], next_pid := 0, all_done := true } none
      = ({ line_num := 1, spawned := [], skipped := [0], next_pid := 0, all_done := false },
         none)) ∧
    (schedRun markedCfg 5 [1, 2]).1.spawned = [] :=
  ⟨claim7_marker_skip_and_idempotence.1 markedCfg
      { line_num := 0, spawned := [], skipped := [], next_pid := 0, all_done := true }
      (by norm_num [markedCfg]) (by simp [markedCfg]),
   claim7_marker_skip_and_idempotence.2 markedCfg 5 [1, 2]
      (by intro i _; simp [markedCfg])⟩

/-- The process world seen by the drain handler: which process ids are
still running, which have been sent an interrupt signal (in order), and
whether further interrupt delivery to the scheduler itself has been
suppressed.  `wait_proc` models the unbounded blocking `wait()`: it
returns only once the process has exited, so in the post-state that
process is no longer alive. -/
structure World where
  alive : ℕ → Bool
  signaled : List ℕ
  sigint_ignored : Bool

/-- `signal.signal(SIGINT, SIG_IGN)` (line 207). -/
def ignore_sigint (w : World) : World := { w with sigint_ignored := true }

/-- `proc.send_signal(SIGINT)` (line 212). -/
def send_sigint (w : World) (pid : ℕ) : World :=
  { w with signaled := w.signaled ++ [pid] }

/-- `proc.wait()` (line 217): block, without timeout, until exit. -/
def wait_proc (w : World) (pid : ℕ) : World :=
  { w with alive := fun q => if q = pid then false else w.alive q }

/-- Signal every occupied slot of one machine (inner loop, lines 210-212). -/
def sendSlots (w : World) (slots : List Slot) : World :=
  slots.foldl (fun w s =>
    match s with
    | some lp => send_sigint w lp.2
    | none => w) w

/-- Signal every occupied slot of every machine (lines 209-212). -/
def signalAll (procs : List (List Slot)) (w : World) : World :=
  procs.foldl sendSlots w

/-- Wait on every occupied slot of one machine (inner loop, lines 215-217). -/
def waitSlots (w : World) (slots : List Slot) : World :=
  slots.foldl (fun w s =>
    match s with
    | some lp => wait_proc w lp.2
    | none => w) w

/-- Wait on every occupied slot of every machine (lines 214-217). -/
def waitAll (procs : List (List Slot)) (w : World) : World :=
  procs.foldl waitSlots w

/-- The `except BaseException` drain handler (lines 206-218): suppress
further interrupts, signal everything, then wait on everything. -/
def drainHandler (procs : List (List Slot)) (w : World) : World :=
  waitAll procs (signalAll procs (ignore_sigint w))

/-- The scheduler loop wrapped in the drain handler: a normal outcome
passes through; an exception (or external interrupt) escaping the loop
triggers the drain and is then re-raised unchanged (`raise be`,
line 218). -/
def runWithDrain {ε α : Type} (outcome : Except ε α) (procs : List (List Slot))
    (w : World) : Except ε α × World :=
  match outcome with
  | Except.ok a => (Except.ok a, w)
  | Except.error e => (Except.error e, drainHandler procs w)

/-- `sendSlots` only appends to the signalled list. -/
lemma sendSlots_signaled_mono (x : ℕ) :
    ∀ (slots : List Slot) (w : World),
      x ∈ w.signaled → x ∈ (sendSlots w slots).signaled := by
  intro slots
  induction slots with
  | nil => intro w h; exact h
  | cons s rest ih =>
      intro w h
      rcases s with _ | lp
      · exact ih w h
      · exact ih _ (by simp [send_sigint, h])

/-- Every occupied slot's pid is signalled by `sendSlots`. -/
lemma sendSlots_mem (l pid : ℕ) :
    ∀ (slots : List Slot) (w : World),
      some (l, pid) ∈ slots → pid ∈ (sendSlots w slots).signaled := by
  intro slots
  induction slots with
  | nil => intro w h; simp at h
  | cons s rest ih =>
      intro w h
      rcases List.mem_cons.mp h with h1 | h1
      · rw [← h1]
        exact sendSlots_signaled_mono pid rest _ (by simp [send_sigint])
      · clear h
        rcases s with _ | lp
        · exact ih _ h1
        · exact ih _ h1

/-- `signalAll` only appends to the signalled list. -/
lemma signalAll_signaled_mono (x : ℕ) :
    ∀ (procs : List (List Slot)) (w : World),
      x ∈ w.signaled → x ∈ (signalAll procs w).signaled := by
  intro procs
  induction procs with
  | nil => intro w h; exact h
  | cons slots rest ih =>
      intro w h
      exact ih _ (sendSlots_signaled_mono x slots w h)

/-- Every occupied slot's pid, on any machine, is signalled. -/
lemma signalAll_mem (l pid : ℕ) :
    ∀ (procs : List (List Slot)) (w : World) (slots : List Slot),
      slots ∈ procs → some (l, pid) ∈ slots →
      pid ∈ (signalAll procs w).signaled := by
  intro procs
  induction procs with
  | nil => intro w slots h; simp at h
  | cons sl rest ih =>
      intro w slots hmem hs
      rcases List.mem_cons.mp hmem with h | h
      · rw [h] at hs
        exact signalAll_signaled_mono pid rest _ (sendSlots_mem l pid sl w hs)
      · exact ih _ slots h hs

/-- Waiting never changes the signalled list. -/
lemma waitSlots_signaled :
    ∀ (slots : List Slot) (w : World), (waitSlots w slots).signaled = w.signaled := by
  intro slots
  induction slots with
  | nil => intro w; rfl
  | cons s rest ih =>
      intro w
      rcases s with _ | lp
      · exact ih w
      · exact ih _

/-- Waiting never changes the signalled list (all machines). -/
lemma waitAll_signaled :
    ∀ (procs : List (List Slot)) (w : World), (waitAll procs w).signaled = w.signaled := by
  intro procs
  induction procs with
  | nil => intro w; rfl
  | cons slots rest ih =>
      intro w
      show (waitAll rest (waitSlots w slots)).signaled = w.signaled
      rw [ih, waitSlots_signaled]

/-- A process observed dead stays dead through further waits. -/
lemma waitSlots_alive_mono (pid : ℕ) :
    ∀ (slots : List Slot) (w : World),
      w.alive pid = false → (waitSlots w slots).alive pid = false := by
  intro slots
  induction slots with
  | nil => intro w h; exact h
  | cons s rest ih =>
      intro w h
      rcases s with _ | lp
      · exact ih w h
      · refine ih _ ?_
        simp only [wait_proc]
        split <;> simp [h]

/-- After `waitSlots`, every occupied slot's process has exited. -/
lemma waitSlots_alive (l pid : ℕ) :
    ∀ (slots : List Slot) (w : World),
      some (l, pid) ∈ slots → (waitSlots w slots).alive pid = false := by
  intro slots
  induction slots with
  | nil => intro w h; simp at h
  | cons s rest ih =>
      intro w h
      rcases List.mem_cons.mp h with h1 | h1
      · rw [← h1]
        exact waitSlots_alive_mono pid rest _ (by simp [wait_proc])
      · clear h
        rcases s with _ | lp
        · exact ih _ h1
        · exact ih _ h1

/-- A process observed dead stays dead through further waits (all
machines). -/
lemma waitAll_alive_mono (pid : ℕ) :
    ∀ (procs : List (List Slot)) (w : World),
      w.alive pid = false → (waitAll procs w).alive pid = false := by
  intro procs
  induction procs with
  | nil => intro w h; exact h
  | cons slots rest ih =>
      intro w h
      exact ih _ (waitSlots_alive_mono pid slots w h)

/-- After `waitAll`, every occupied slot's process has exited. -/
lemma waitAll_alive (l pid : ℕ) :
    ∀ (procs : List (List Slot)) (w : World) (slots : List Slot),
      slots ∈ procs → some (l, pid) ∈ slots →
      (waitAll procs w).alive pid = false := by
  intro procs
  induction procs with
  | nil => intro w slots h; simp at h
  | cons sl rest ih =>
      intro w slots hmem hs
      rcases List.mem_cons.mp hmem with h | h
      · rw [h] at hs
        exact waitAll_alive_mono pid rest _ (waitSlots_alive l pid sl w hs)
      · exact ih _ slots h hs

/-- Claim C8: when an exception escapes the scheduling loop, the drain
handler signals an interrupt to every process occupying a slot on any
machine, waits (without timeout) until each such process has exited,
and re-raises the original exception; in the post-state no slot holds a
still-running process. -/
theorem claim8_drain_all_and_reraise {ε α : Type} (e : ε)
    (procs : List (List Slot)) (w : World) :
    (runWithDrain (Except.error e : Except ε α) procs w).1 = Except.error e ∧
    ∀ slots ∈ procs, ∀ l pid, some (l, pid) ∈ slots →
      pid ∈ (runWithDrain (Except.error e : Except ε α) procs w).2.signaled ∧
      (runWithDrain (Except.error e : Except ε α) procs w).2.alive pid = false := by
  refine ⟨rfl, ?_⟩
  intro slots hmem l pid hs
  constructor
  · show pid ∈ (drainHandler procs w).signaled
    unfold drainHandler
    rw [waitAll_signaled]
    exact signalAll_mem l pid procs _ slots hmem hs
  · show (drainHandler procs w).alive pid = false
    unfold drainHandler
    exact waitAll_alive l pid procs _ slots hmem hs

/-- The escaping interrupt's payload used by the claim C8 witness. -/
def interruptedMsg : String := "interrupted"

/-- Witness for claim C8 on a concrete two-machine slot table. -/
theorem claim8_drain_all_and_reraise_witness :
    (runWithDrain (Except.error interruptedMsg : Except String Unit)
        [[some (0, 5), none], [some (1, 7)]]
        { alive := fun _ => true, signaled := [], sigint_ignored := false }).1
      = Except.error interruptedMsg ∧
    ∀ slots ∈ ([[some (0, 5), none], [some (1, 7)]] : List (List Slot)),
      ∀ l pid, some (l, pid) ∈ slots →
        pid ∈ (runWithDrain (Except.error interruptedMsg : Except String Unit)
            [[some (0, 5), none], [some (1, 7)]]
            { alive := fun _ => true, signaled := [], sigint_ignored := false }).2.signaled ∧
        (runWithDrain (Except.error interruptedMsg : Except String Unit)
            [[some (0, 5), none], [some (1, 7)]]
            { alive := fun _ => true, signaled := [], sigint_ignored := false }).2.alive pid
          = false :=
  claim8_drain_all_and_reraise interruptedMsg
    [[some (0, 5), none], [some (1, 7)]]
    { alive := fun _ => true, signaled := [], sigint_ignored := false }

/-- Witness for claim C2 on the worked example. -/
theorem claim2_improving_scan_witness :
    ∃ i choice,
      specScan exampleArgs.gpu_memory_required exampleSnapshot.gpus = some (i, choice) ∧
      exampleSnapshot.gpus[i]? = some choice ∧
      (subtract_process_req exampleSnapshot exampleArgs).2 = i ∧
      ∃ g2,
        (subtract_process_req exampleSnapshot exampleArgs).1.gpus =
          exampleSnapshot.gpus.set i g2 ∧
        g2.free = choice.free - exampleArgs.gpu_memory_required ∧
        g2.utilization = choice.utilization + exampleArgs.gpu_utilization :=
  claim2_improving_scan exampleSnapshot exampleArgs rfl (by simp [exampleSnapshot])

end Kabuki
